import Mathlib

/-!
Verification development for the emailux webhook-ingestion pipeline
(`src/unnamed/part_000`).  The file shallowly embeds the hardened handler
("variant 1", lines 1-182): the zod validation schema `webhookSchema`, the
normalization of the validated payload into the `userData` record, the
Prisma upserts for the user row and each email row, and the Prisma error
code to HTTP status mapping of the catch block.  Variant 2's divergent
update branch (lines 214-229, `?? undefined`) is embedded separately as
`v2UpdateUser`.

Modelling conventions:
* JSON numbers are modelled as `Int` (the payloads in question carry epoch
  millisecond timestamps); `new Date(n)` is modelled as the epoch value
  itself.
* JavaScript `a ?? b` (nullish coalescing) is modelled as `Option.orElse`:
  `null`/`undefined` both become `none`.
* A relational table with a primary key is modelled as a map from the key
  to an optional row, so a key holds at most one row, as a primary key
  guarantees.
-/

namespace Emailux

/-- A JSON value as delivered to the handler.  Numbers are modelled as
integers (see the header comment). -/
inductive Json where
  | null : Json
  | bool (b : Bool) : Json
  | num (n : Int) : Json
  | str (s : String) : Json
  | arr (elems : List Json) : Json
  | obj (fields : List (String × Json)) : Json

/-- `verification: { status, strategy }` of an email-address entry
(schema lines 13-16). -/
structure Verification where
  status : String
  strategy : String
deriving DecidableEq

/-- One element of `data.email_addresses` (schema lines 9-18). -/
structure EmailAddressEntry where
  email_address : String
  id : String
  verification : Verification
deriving DecidableEq

/-- One element of `data.external_accounts` (schema lines 19-30).
`given_name`/`family_name` are nullable and optional; `none` stands for
absent-or-null, which JavaScript's `??` treats identically. -/
structure ExternalAccount where
  email_address : String
  given_name : Option String
  family_name : Option String
  picture : Option String
  approved_scopes : String
  google_id : Option String
deriving DecidableEq

/-- The validated `data` object of the webhook payload
(schema lines 7-38). -/
structure RawUser where
  id : String
  email_addresses : List EmailAddressEntry
  external_accounts : Option (List ExternalAccount)
  first_name : Option String
  last_name : Option String
  image_url : Option String
  created_at : Int
  updated_at : Int
  banned : Bool
  external_id : Option String
deriving DecidableEq

/-- A validated webhook payload (schema lines 6-40). -/
structure IncomingEvent where
  data : RawUser
  type : String
deriving DecidableEq

/-- Split a character list at every occurrence of `c`; always returns at
least one (possibly empty) piece. -/
def splitOnChar (c : Char) : List Char → List (List Char)
  | [] => [[]]
  | x :: xs =>
    if x = c then [] :: splitOnChar c xs
    else
      match splitOnChar c xs with
      | ys :: rest => (x :: ys) :: rest
      | [] => [[x]]

/-- Modelled from the spec: zod's `z.string().email()` format check, which
lives in the external zod library, not in this repository.  A single `@`,
a non-empty local part, and a dot-separated domain with non-empty labels. -/
def isEmail (s : String) : Bool :=
  match splitOnChar '@' s.toList with
  | [lp, dom] =>
    !lp.isEmpty && dom.contains '.' && (splitOnChar '.' dom).all (fun part => !part.isEmpty)
  | _ => false

/-- The characters before and after the first `://`, when present. -/
def urlSplit : List Char → Option (List Char × List Char)
  | [] => none
  | ':' :: '/' :: '/' :: rest => some ([], rest)
  | c :: rest => (urlSplit rest).map (fun pr => (c :: pr.1, pr.2))

/-- Modelled from the spec: zod's `z.string().url()` format check, which
lives in the external zod library, not in this repository.  A non-empty
scheme followed by `://` and a non-empty remainder. -/
def isUrl (s : String) : Bool :=
  match urlSplit s.toList with
  | some (scheme, rest) => !scheme.isEmpty && !rest.isEmpty
  | none => false

/-- `z.string()` applied to a JSON value: succeeds only on strings. -/
def jStr : Json → Option String
  | .str s => some s
  | _ => none

/-- `z.number()` applied to a JSON value. -/
def jNum : Json → Option Int
  | .num n => some n
  | _ => none

/-- `z.boolean()` applied to a JSON value. -/
def jBool : Json → Option Bool
  | .bool b => some b
  | _ => none

/-- `z.string().email()` applied to a JSON value. -/
def jEmail (j : Json) : Option String :=
  (jStr j).bind fun s => if isEmail s then some s else none

/-- `z.string().url()` applied to a JSON value. -/
def jUrl (j : Json) : Option String :=
  (jStr j).bind fun s => if isUrl s then some s else none

/-- `.nullable()`: `null` parses to `none`; otherwise the base parser must
succeed. -/
def jNullable (p : Json → Option α) : Json → Option (Option α)
  | .null => some none
  | j => (p j).map some

/-- Look up a key in a JSON object's field list. -/
def getF (fs : List (String × Json)) (k : String) : Option Json :=
  (fs.find? (fun pr => pr.1 = k)).map (fun pr => pr.2)

/-- A required object field: the key must be present and its value must
parse. -/
def reqF (fs : List (String × Json)) (k : String) (p : Json → Option α) : Option α :=
  (getF fs k).bind p

/-- An `.optional()` object field: an absent key parses to `none`; a
present key's value must parse. -/
def optF (fs : List (String × Json)) (k : String) (p : Json → Option α) : Option (Option α) :=
  match getF fs k with
  | none => some none
  | some v => (p v).map some

/-- A `.nullable().optional()` string field: absent and `null` both parse
to `none`; a present non-null value must be a string. -/
def optNullStrF (fs : List (String × Json)) (k : String) : Option (Option String) :=
  match getF fs k with
  | none => some none
  | some v => jNullable jStr v

/-- `z.array(p)` applied element-wise; any element failure fails the
whole array. -/
def mapOpt (p : Json → Option α) : List Json → Option (List α)
  | [] => some []
  | x :: xs =>
    match p x with
    | none => none
    | some y => (mapOpt p xs).map (fun ys => y :: ys)

/-- `z.array(p)` applied to a JSON value: succeeds only on arrays. -/
def jArr (p : Json → Option α) : Json → Option (List α)
  | .arr xs => mapOpt p xs
  | _ => none

/-- Parser for the `verification` object (schema lines 13-16). -/
def parseVerification (j : Json) : Option Verification :=
  match j with
  | .obj fs =>
    match reqF fs "status" jStr, reqF fs "strategy" jStr with
    | some status, some strategy => some ⟨status, strategy⟩
    | _, _ => none
  | _ => none

/-- Parser for one `email_addresses` element (schema lines 10-17). -/
def parseEmailEntry (j : Json) : Option EmailAddressEntry :=
  match j with
  | .obj fs =>
    match reqF fs "email_address" jEmail, reqF fs "id" jStr,
        reqF fs "verification" parseVerification with
    | some ea, some i, some v => some ⟨ea, i, v⟩
    | _, _, _ => none
  | _ => none

/-- Parser for one `external_accounts` element (schema lines 21-28). -/
def parseAccount (j : Json) : Option ExternalAccount :=
  match j with
  | .obj fs =>
    match reqF fs "email_address" jEmail, optNullStrF fs "given_name",
        optNullStrF fs "family_name", optF fs "picture" jUrl,
        reqF fs "approved_scopes" jStr, optF fs "google_id" jStr with
    | some ea, some gn, some fn, some pic, some scopes, some gid =>
      some ⟨ea, gn, fn, pic, scopes, gid⟩
    | _, _, _, _, _, _ => none
  | _ => none

/-- Parser for the `data` object (schema lines 7-38). -/
def parseRawUser (j : Json) : Option RawUser :=
  match j with
  | .obj fs =>
    match reqF fs "id" jStr, reqF fs "email_addresses" (jArr parseEmailEntry),
        optF fs "external_accounts" (jArr parseAccount),
        reqF fs "first_name" (jNullable jStr), reqF fs "last_name" (jNullable jStr),
        reqF fs "image_url" (jNullable jUrl), reqF fs "created_at" jNum,
        reqF fs "updated_at" jNum, reqF fs "banned" jBool,
        reqF fs "external_id" (jNullable jStr) with
    | some i, some eas, some exts, some fn, some ln, some iu, some ca, some ua,
        some b, some ei =>
      some ⟨i, eas, exts, fn, ln, iu, ca, ua, b, ei⟩
    | _, _, _, _, _, _, _, _, _, _ => none
  | _ => none

/-- `webhookSchema.safeParse` (schema lines 6-40): the whole payload must
be an object with a conforming `data` object and a string `type`. -/
def webhookSafeParse (j : Json) : Option IncomingEvent :=
  match j with
  | .obj fs =>
    match reqF fs "data" parseRawUser, reqF fs "type" jStr with
    | some d, some t => some ⟨d, t⟩
    | _, _ => none
  | _ => none

/-- A persisted user row (the `userData` record of handler lines 84-98).
`createdAtClerk`/`updatedAtClerk` hold the epoch-millisecond value passed
to `new Date`. -/
structure CanonicalUser where
  id : String
  emailAddress : String
  firstName : Option String
  lastName : Option String
  imageUrl : Option String
  emailVerified : Bool
  createdAtClerk : Int
  updatedAtClerk : Int
  banned : Bool
  externalId : Option String
  oauthProvider : Option String
  oauthId : Option String
  oauthScopes : Option String
deriving DecidableEq

/-- A persisted email row (the `db.userEmail` create branch, handler
lines 121-127). -/
structure CanonicalEmail where
  id : String
  userId : String
  emailAddress : String
  verificationStatus : String
  verificationStrategy : String
deriving DecidableEq

/-- `const externalAccount = data.external_accounts?.[0]` (line 81):
`undefined` both when the field is absent and when the array is empty. -/
def externalAccount (d : RawUser) : Option ExternalAccount :=
  d.external_accounts.bind List.head?

/-- The `userData` record (handler lines 84-98), as a function of the
validated `data` object and the already-extracted primary email entry. -/
def userData (d : RawUser) (primaryEmail : EmailAddressEntry) : CanonicalUser where
  id := d.id
  emailAddress := primaryEmail.email_address
  firstName := Option.orElse d.first_name fun _ => (externalAccount d).bind (fun a => a.given_name)
  lastName := Option.orElse d.last_name fun _ => (externalAccount d).bind (fun a => a.family_name)
  imageUrl := Option.orElse d.image_url fun _ => (externalAccount d).bind (fun a => a.picture)
  emailVerified := primaryEmail.verification.status == "verified"
  createdAtClerk := d.created_at
  updatedAtClerk := d.updated_at
  banned := d.banned
  externalId := d.external_id
  oauthProvider := match externalAccount d with
    | some _ => some "google"
    | none => none
  oauthId := (externalAccount d).bind (fun a => a.google_id)
  oauthScopes := (externalAccount d).map (fun a => a.approved_scopes)

/-- The relational store the handler writes to: both tables are keyed by
their primary keys. -/
structure Store where
  users : String → Option CanonicalUser
  emails : String → Option CanonicalEmail

/-- The empty store. -/
def emptyStore : Store := ⟨fun _ => none, fun _ => none⟩

/-- `db.user.upsert({ where: { id }, update: userData, create: userData })`
(lines 104-108): both branches write the full `userData` record, so the
row at the key becomes `u` whether or not it existed. -/
def applyUser (m : String → Option CanonicalUser) (u : CanonicalUser) :
    String → Option CanonicalUser :=
  fun x => if x = u.id then some u else m x

/-- The `update` branch of `db.userEmail.upsert` (lines 116-120): only
`emailAddress`, `verificationStatus` and `verificationStrategy` are
written; `id` and `userId` are untouched. -/
def upd3 (e : EmailAddressEntry) (r : CanonicalEmail) : CanonicalEmail :=
  { r with
    emailAddress := e.email_address
    verificationStatus := e.verification.status
    verificationStrategy := e.verification.strategy }

/-- The `create` branch of `db.userEmail.upsert` (lines 121-127). -/
def mkEmailRow (uid : String) (e : EmailAddressEntry) : CanonicalEmail :=
  ⟨e.id, uid, e.email_address, e.verification.status, e.verification.strategy⟩

/-- `db.userEmail.upsert({ where: { id: email.id }, update, create })`
(lines 114-128): update the three mapped fields when a row with that id
exists, else insert a fresh row owned by `uid`. -/
def applyEmail (m : String → Option CanonicalEmail) (uid : String)
    (e : EmailAddressEntry) : String → Option CanonicalEmail :=
  fun x =>
    if x = e.id then
      some (match m e.id with
        | some r => upd3 e r
        | none => mkEmailRow uid e)
    else m x

/-- A persistence failure raised by one of the upsert calls: either a
`PrismaClientKnownRequestError` carrying its error code, or any other
thrown error. -/
inductive DbError where
  | known (code : String)
  | unknownErr
deriving DecidableEq

/-- One persistence call issued by the handler, with the arguments it was
given. -/
inductive DbOp where
  | userUpsert (whereId : String) (row : CanonicalUser)
  | emailUpsert (whereId : String) (updEmail updStatus updStrategy : String)
      (createRow : CanonicalEmail)
deriving DecidableEq

/-- The `prismaErrors` record of the catch block (lines 145-150). -/
def prismaErrors (code : String) : Option (Nat × String) :=
  if code = "P2002" then some (409, "Resource already exists")
  else if code = "P2014" then some (400, "Invalid ID provided")
  else if code = "P2003" then some (400, "Foreign key constraint failed")
  else none

/-- `const errorInfo = prismaErrors[error.code] ?? { status: 500, ... }`
(lines 152-155). -/
def errorInfo (code : String) : Nat × String :=
  (prismaErrors code).getD (500, "Database error occurred")

/-- The `Response` values the handler can return, by the branch that
produced them. -/
inductive HandlerResponse where
  | missingBody
  | invalidPayload
  | noPrimaryEmail
  | success (userId : String)
  | dbKnownError (code : String)
  | internalError
deriving DecidableEq

/-- The HTTP status carried by each response (lines 44-48, 60-69, 77,
131-140, 157-167, 170-180). -/
def HandlerResponse.status : HandlerResponse → Nat
  | .missingBody => 400
  | .invalidPayload => 400
  | .noPrimaryEmail => 400
  | .success _ => 200
  | .dbKnownError code => (errorInfo code).1
  | .internalError => 500

/-- The response produced by the catch block for a thrown persistence
error (lines 144-180). -/
def errResponse : DbError → HandlerResponse
  | .known code => .dbKnownError code
  | .unknownErr => .internalError

/-- The observable outcome of one handler invocation: the HTTP response,
the final store, and the persistence calls issued, in order. -/
structure HandlerOutput where
  resp : HandlerResponse
  store : Store
  trace : List DbOp

/-- The `DbOp` recorded for the email upsert of entry `e` (lines
114-128). -/
def emailOp (uid : String) (e : EmailAddressEntry) : DbOp :=
  .emailUpsert e.id e.email_address e.verification.status e.verification.strategy
    (mkEmailRow uid e)

/-- The `for (const email of data.email_addresses)` loop (lines 113-129),
instrumented with a fault oracle: `faults i` is the error thrown by the
`i`-th persistence call of this invocation (call 0 is the user upsert, so
the loop starts at call index 1).  A thrown error stops the loop; the
failing call changes nothing but is still recorded as issued. -/
def emailLoop (faults : Nat → Option DbError) (uid : String) :
    List EmailAddressEntry → Nat → (String → Option CanonicalEmail) →
    Option DbError × (String → Option CanonicalEmail) × List DbOp
  | [], _, m => (none, m, [])
  | e :: rest, i, m =>
    match faults i with
    | some err => (some err, m, [emailOp uid e])
    | none =>
      let r := emailLoop faults uid rest (i + 1) (applyEmail m uid e)
      (r.1, r.2.1, emailOp uid e :: r.2.2)

/-- The body of `POST` after a successful parse (lines 72-140 and the
catch block), as a function of the validated `data` object.  The `type`
field of the event is validated but never read here, exactly as in the
source. -/
def handleEvent (faults : Nat → Option DbError) (d : RawUser) (s : Store) :
    HandlerOutput :=
  match d.email_addresses with
  | [] => ⟨.noPrimaryEmail, s, []⟩
  | pe :: rest =>
    let u := userData d pe
    match faults 0 with
    | some err => ⟨errResponse err, s, [.userUpsert d.id u]⟩
    | none =>
      let s1 : Store := ⟨applyUser s.users u, s.emails⟩
      let r := emailLoop faults d.id (pe :: rest) 1 s1.emails
      match r.1 with
      | some err => ⟨errResponse err, ⟨s1.users, r.2.1⟩, .userUpsert d.id u :: r.2.2⟩
      | none => ⟨.success d.id, ⟨s1.users, r.2.1⟩, .userUpsert d.id u :: r.2.2⟩

/-- The `POST` handler (lines 42-182, "variant 1").  `body = none` models
a request with no body; otherwise the body is the parsed JSON value.
`faults` drives the persistence layer (see `emailLoop`). -/
def POST (faults : Nat → Option DbError) (body : Option Json) (s : Store) :
    HandlerOutput :=
  match body with
  | none => ⟨.missingBody, s, []⟩
  | some j =>
    match webhookSafeParse j with
    | none => ⟨.invalidPayload, s, []⟩
    | some ev => handleEvent faults ev.data s

/-- A fault oracle under which every persistence call succeeds. -/
def noFaults : Nat → Option DbError := fun _ => none

/-- The `update` branch of variant 2's `db.user.upsert` (lines 216-221):
`emailAddress` is always written, while `firstName`/`lastName`/`imageUrl`
use `?? undefined`, which Prisma treats as "leave the column unchanged"
when the incoming value is null. -/
def v2UpdateUser (old : CanonicalUser) (emailAddress : String)
    (firstName lastName imageUrl : Option String) : CanonicalUser :=
  { old with
    emailAddress := emailAddress
    firstName := match firstName with
      | some s => some s
      | none => old.firstName
    lastName := match lastName with
      | some s => some s
      | none => old.lastName
    imageUrl := match imageUrl with
      | some s => some s
      | none => old.imageUrl }

/-- The cumulative effect on the email table of running the upsert loop
over `es` with every call succeeding. -/
def foldEmails (uid : String) (es : List EmailAddressEntry)
    (m : String → Option CanonicalEmail) : String → Option CanonicalEmail :=
  es.foldl (fun acc e => applyEmail acc uid e) m

/-- The last entry of `es` whose provider-assigned id is `x`, if any: the
entry whose upsert determines the final mapped fields of the row keyed
`x`. -/
def lastWith (x : String) : List EmailAddressEntry → Option EmailAddressEntry
  | [] => none
  | e :: rest =>
    match lastWith x rest with
    | some e' => some e'
    | none => if e.id = x then some e else none

/-- The payload has a `data` object but its `email_addresses` key is
absent. -/
def dataMissingEmails (j : Json) : Bool :=
  match j with
  | .obj fs =>
    match getF fs "data" with
    | some (.obj ds) => (getF ds "email_addresses").isNone
    | _ => false
  | _ => false

/-- A concrete well-formed webhook payload: one verified email address,
no external accounts. -/
def sampleJson : Json :=
  .obj [
    ("data", .obj [
      ("id", .str "user_1"),
      ("email_addresses", .arr [
        .obj [
          ("email_address", .str "ada@example.com"),
          ("id", .str "idn_1"),
          ("verification", .obj [
            ("status", .str "verified"),
            ("strategy", .str "from_oauth_google")])]]),
      ("first_name", .str "Ada"),
      ("last_name", .null),
      ("image_url", .null),
      ("created_at", .num 1700000000000),
      ("updated_at", .num 1700000000000),
      ("banned", .bool false),
      ("external_id", .null)]),
    ("type", .str "user.created")]

/-- The same payload with only the `type` string changed. -/
def sampleJsonDeleted : Json :=
  .obj [
    ("data", .obj [
      ("id", .str "user_1"),
      ("email_addresses", .arr [
        .obj [
          ("email_address", .str "ada@example.com"),
          ("id", .str "idn_1"),
          ("verification", .obj [
            ("status", .str "verified"),
            ("strategy", .str "from_oauth_google")])]]),
      ("first_name", .str "Ada"),
      ("last_name", .null),
      ("image_url", .null),
      ("created_at", .num 1700000000000),
      ("updated_at", .num 1700000000000),
      ("banned", .bool false),
      ("external_id", .null)]),
    ("type", .str "user.deleted")]

/-- The primary email entry of `sampleJson`. -/
def samplePE : EmailAddressEntry :=
  ⟨"ada@example.com", "idn_1", ⟨"verified", "from_oauth_google"⟩⟩

/-- The parse result of `sampleJson`. -/
def sampleEvent : IncomingEvent :=
  ⟨⟨"user_1", [samplePE], none, some "Ada", none, none,
    1700000000000, 1700000000000, false, none⟩, "user.created"⟩

/-- The parse result of `sampleJsonDeleted`. -/
def sampleEventDeleted : IncomingEvent :=
  ⟨⟨"user_1", [samplePE], none, some "Ada", none, none,
    1700000000000, 1700000000000, false, none⟩, "user.deleted"⟩

/-- A payload whose `data` object passes validation with an empty string
id and an empty `email_addresses` array. -/
def emptyEmailsJson : Json :=
  .obj [
    ("data", .obj [
      ("id", .str ""),
      ("email_addresses", .arr []),
      ("first_name", .null),
      ("last_name", .null),
      ("image_url", .null),
      ("created_at", .num 0),
      ("updated_at", .num 0),
      ("banned", .bool false),
      ("external_id", .null)]),
    ("type", .str "user.created")]

/-- The parse result of `emptyEmailsJson`. -/
def emptyEmailsEvent : IncomingEvent :=
  ⟨⟨"", [], none, none, none, none, 0, 0, false, none⟩, "user.created"⟩

/-- A validated `data` object whose native `first_name` is the empty
string while a linked external account offers "Ada": the fallback must
not trigger. -/
def c2User : RawUser :=
  ⟨"user_2", [samplePE],
    some [⟨"ada@gmail.com", some "Ada", some "Lovelace", none, "email profile", some "g123"⟩],
    some "", none, none, 0, 0, false, none⟩

/-- A stored user row owned by `user_1` with non-null names, used to
exercise variant 2's update branch. -/
def c5OldRow : CanonicalUser :=
  ⟨"user_1", "old@example.com", some "Old", some "Name", some "http://old.example/p.png",
    false, 0, 0, false, none, none, none, none⟩

/-- A store already holding `c5OldRow` under the key `user_1`. -/
def c5Store : Store :=
  ⟨fun x => if x = "user_1" then some c5OldRow else none, fun _ => none⟩

/-- An email table holding the row `idn_1` under a different owner. -/
def c9Row : CanonicalEmail :=
  ⟨"idn_1", "other_user", "old@example.com", "unverified", "admin"⟩

/-- The email map containing only `c9Row`. -/
def c9Map : String → Option CanonicalEmail :=
  fun x => if x = "idn_1" then some c9Row else none

theorem jEmail_valid {j : Json} {s : String} (h : jEmail j = some s) :
    isEmail s = true := by
  unfold jEmail at h
  cases hj : jStr j with
  | none => rw [hj] at h; simp at h
  | some v =>
    rw [hj] at h
    by_cases hie : isEmail v
    · simp [hie] at h
      exact h ▸ hie
    · simp [hie] at h

theorem jUrl_valid {j : Json} {s : String} (h : jUrl j = some s) :
    isUrl s = true := by
  unfold jUrl at h
  cases hj : jStr j with
  | none => rw [hj] at h; simp at h
  | some v =>
    rw [hj] at h
    by_cases hiu : isUrl v
    · simp [hiu] at h
      exact h ▸ hiu
    · simp [hiu] at h

theorem jNullable_some {α : Type} {p : Json → Option α} {j : Json} {a : α}
    (h : jNullable p j = some (some a)) : p j = some a := by
  cases j
  case null => simp [jNullable] at h
  all_goals
    simp only [jNullable, Option.map_eq_some'] at h
    obtain ⟨b, hb, hba⟩ := h
    injection hba with hba
    subst hba
    exact hb

theorem reqF_some {α : Type} {fs : List (String × Json)} {k : String}
    {p : Json → Option α} {a : α} (h : reqF fs k p = some a) :
    ∃ v, getF fs k = some v ∧ p v = some a := by
  unfold reqF at h
  cases hg : getF fs k with
  | none => rw [hg] at h; simp at h
  | some v =>
    rw [hg] at h
    exact ⟨v, rfl, by simpa using h⟩

theorem optF_some_val {α : Type} {fs : List (String × Json)} {k : String}
    {p : Json → Option α} {a : α} (h : optF fs k p = some (some a)) :
    ∃ v, getF fs k = some v ∧ p v = some a := by
  unfold optF at h
  cases hg : getF fs k with
  | none => rw [hg] at h; simp at h
  | some v =>
    rw [hg] at h
    simp only [Option.map_eq_some'] at h
    obtain ⟨b, hb, hba⟩ := h
    injection hba with hba
    subst hba
    exact ⟨v, rfl, hb⟩

theorem mapOpt_forall {α : Type} {p : Json → Option α} {C : α → Prop}
    (hp : ∀ j a, p j = some a → C a) :
    ∀ (xs : List Json) (ys : List α), mapOpt p xs = some ys → ∀ y ∈ ys, C y := by
  intro xs
  induction xs with
  | nil =>
    intro ys h y hy
    simp [mapOpt] at h
    subst h
    simp at hy
  | cons x xs ih =>
    intro ys h y hy
    unfold mapOpt at h
    cases hx : p x with
    | none => rw [hx] at h; simp at h
    | some z =>
      rw [hx] at h
      simp only [Option.map_eq_some'] at h
      obtain ⟨zs, hzs, hcons⟩ := h
      subst hcons
      rcases List.mem_cons.mp hy with heq | hmem
      · subst heq
        exact hp x y hx
      · exact ih zs hzs y hmem

theorem jArr_some {α : Type} {p : Json → Option α} {v : Json} {ys : List α}
    (h : jArr p v = some ys) : ∃ xs, v = .arr xs ∧ mapOpt p xs = some ys := by
  cases v
  case arr xs => exact ⟨xs, rfl, by simpa [jArr] using h⟩
  all_goals simp [jArr] at h

theorem parseEmailEntry_email {j : Json} {e : EmailAddressEntry}
    (h : parseEmailEntry j = some e) : isEmail e.email_address = true := by
  cases j
  case obj fs =>
    simp only [parseEmailEntry] at h
    split at h
    · rename_i ea i v heq1 heq2 heq3
      injection h with h
      subst h
      obtain ⟨jv, _, hv⟩ := reqF_some heq1
      exact jEmail_valid hv
    · simp at h
  all_goals simp [parseEmailEntry] at h

theorem parseAccount_valid {j : Json} {a : ExternalAccount}
    (h : parseAccount j = some a) :
    isEmail a.email_address = true ∧ ∀ u, a.picture = some u → isUrl u = true := by
  cases j
  case obj fs =>
    simp only [parseAccount] at h
    split at h
    · rename_i ea gn fn pic scopes gid heq1 heq2 heq3 heq4 heq5 heq6
      injection h with h
      subst h
      refine ⟨?_, fun u hu => ?_⟩
      · obtain ⟨jv, _, hv⟩ := reqF_some heq1
        exact jEmail_valid hv
      · rw [show pic = some u from hu] at heq4
        obtain ⟨jv, _, hv⟩ := optF_some_val heq4
        exact jUrl_valid hv
    · simp at h
  all_goals simp [parseAccount] at h

theorem parseRawUser_valid {j : Json} {d : RawUser} (h : parseRawUser j = some d) :
    (∀ e ∈ d.email_addresses, isEmail e.email_address = true) ∧
    (∀ u, d.image_url = some u → isUrl u = true) ∧
    (∀ l, d.external_accounts = some l → ∀ a ∈ l,
      isEmail a.email_address = true ∧ ∀ u, a.picture = some u → isUrl u = true) := by
  cases j
  case obj fs =>
    simp only [parseRawUser] at h
    split at h
    · rename_i i eas exts fn ln iu ca ua b ei heq1 heq2 heq3 heq4 heq5 heq6 heq7
        heq8 heq9 heq10
      injection h with h
      subst h
      refine ⟨?_, fun u hu => ?_, fun l hl a hal => ?_⟩
      · obtain ⟨jv, hgj, hv⟩ := reqF_some heq2
        obtain ⟨xs, hxs, hmo⟩ := jArr_some hv
        exact mapOpt_forall (fun j' e' h' => parseEmailEntry_email h') xs eas hmo
      · obtain ⟨jv, hgj, hv⟩ := reqF_some heq6
        rw [show iu = some u from hu] at hv
        exact jUrl_valid (jNullable_some hv)
      · rw [show exts = some l from hl] at heq3
        obtain ⟨jv, hgj, hv⟩ := optF_some_val heq3
        obtain ⟨xs, hxs, hmo⟩ := jArr_some hv
        exact mapOpt_forall (fun j' a' h' => parseAccount_valid h') xs l hmo a hal
    · simp at h
  all_goals simp [parseRawUser] at h

theorem parseRawUser_noEmails {ds : List (String × Json)}
    (h : getF ds "email_addresses" = none) : parseRawUser (.obj ds) = none := by
  simp only [parseRawUser]
  split
  · rename_i i eas exts fn ln iu ca ua b ei heq1 heq2 heq3 heq4 heq5 heq6 heq7
      heq8 heq9 heq10
    exfalso
    obtain ⟨v, hg, _⟩ := reqF_some heq2
    rw [h] at hg
    simp at hg
  · rfl

theorem dataMissingEmails_parse {j : Json} (h : dataMissingEmails j = true) :
    webhookSafeParse j = none := by
  cases j
  case obj fs =>
    simp only [dataMissingEmails] at h
    cases hd : getF fs "data" with
    | none => rw [hd] at h; simp at h
    | some v =>
      rw [hd] at h
      cases v
      case obj ds =>
        have hnone : getF ds "email_addresses" = none := by simpa using h
        simp only [webhookSafeParse]
        split
        · rename_i d t heq1 heq2
          exfalso
          obtain ⟨v', hg, hp⟩ := reqF_some heq1
          rw [hd] at hg
          injection hg with hg
          subst hg
          rw [parseRawUser_noEmails hnone] at hp
          simp at hp
        · rfl
      all_goals simp at h
  all_goals simp [dataMissingEmails] at h

theorem POST_parse {j : Json} {ev : IncomingEvent}
    (faults : Nat → Option DbError) (s : Store)
    (h : webhookSafeParse j = some ev) :
    POST faults (some j) s = handleEvent faults ev.data s := by
  simp [POST, h]

theorem emailLoop_noFaults (uid : String) :
    ∀ (es : List EmailAddressEntry) (i : Nat) (m : String → Option CanonicalEmail),
    emailLoop noFaults uid es i m = (none, foldEmails uid es m, es.map (emailOp uid)) := by
  intro es
  induction es with
  | nil => intro i m; simp [emailLoop, foldEmails]
  | cons e rest ih => intro i m; simp [emailLoop, noFaults, ih, foldEmails]

theorem lastWith_id (x : String) :
    ∀ (es : List EmailAddressEntry) (e : EmailAddressEntry),
    lastWith x es = some e → e.id = x := by
  intro es
  induction es with
  | nil => intro e h; simp [lastWith] at h
  | cons e0 rest ih =>
    intro e h
    unfold lastWith at h
    cases hr : lastWith x rest with
    | some e' =>
      rw [hr] at h
      injection h with h
      exact h ▸ ih e' hr
    | none =>
      rw [hr] at h
      by_cases h0 : e0.id = x
      · simp [h0] at h
        subst h
        exact h0
      · simp [h0] at h

theorem upd3_mk (uid : String) (e e' : EmailAddressEntry) (h : e'.id = e.id) :
    upd3 e' (mkEmailRow uid e) = mkEmailRow uid e' := by
  simp [upd3, mkEmailRow, h]

theorem foldEmails_apply (uid x : String) :
    ∀ (es : List EmailAddressEntry) (m : String → Option CanonicalEmail),
    foldEmails uid es m x =
      match lastWith x es with
      | none => m x
      | some e =>
        some (match m x with
          | some r => upd3 e r
          | none => mkEmailRow uid e) := by
  intro es
  induction es with
  | nil => intro m; simp [foldEmails, lastWith]
  | cons e0 rest ih =>
    intro m
    have hstep : foldEmails uid (e0 :: rest) m = foldEmails uid rest (applyEmail m uid e0) := rfl
    rw [hstep, ih]
    simp only [lastWith]
    cases hr : lastWith x rest with
    | some e' =>
      by_cases hx : x = e0.id
      · subst hx
        cases hm : m e0.id with
        | some r => simp [applyEmail, hm, upd3]
        | none =>
          have hid : e'.id = e0.id := lastWith_id e0.id rest e' hr
          simp [applyEmail, hm, upd3_mk uid e0 e' hid]
      · simp [applyEmail, hx]
    | none =>
      by_cases h0 : e0.id = x
      · subst h0
        simp [applyEmail]
      · have hx : ¬(x = e0.id) := fun hh => h0 hh.symm
        simp [applyEmail, hx, h0]

theorem foldEmails_idem (uid : String) (es : List EmailAddressEntry)
    (m : String → Option CanonicalEmail) :
    foldEmails uid es (foldEmails uid es m) = foldEmails uid es m := by
  funext x
  simp only [foldEmails_apply]
  cases hl : lastWith x es with
  | none => rfl
  | some e =>
    cases hm : m x with
    | some r => simp [upd3]
    | none => simp [upd3_mk uid e e rfl]

theorem applyUser_idem (m : String → Option CanonicalUser) (u : CanonicalUser) :
    applyUser (applyUser m u) u = applyUser m u := by
  funext x
  by_cases h : x = u.id <;> simp [applyUser, h]

theorem handleEvent_noFaults {d : RawUser} {pe : EmailAddressEntry}
    {rest : List EmailAddressEntry} (s : Store) (h : d.email_addresses = pe :: rest) :
    handleEvent noFaults d s =
      ⟨.success d.id,
        ⟨applyUser s.users (userData d pe), foldEmails d.id (pe :: rest) s.emails⟩,
        .userUpsert d.id (userData d pe) :: (pe :: rest).map (emailOp d.id)⟩ := by
  unfold handleEvent
  rw [h]
  simp [noFaults, emailLoop_noFaults]

/-- C1: applying the handler twice with the same valid payload leaves the
store exactly as one application does — the user upsert and every email
upsert are keyed by their primary keys — and the single application
leaves one user row, keyed `data.id`, holding the normalized record. -/
theorem c1_handler_idempotent (j : Json) (ev : IncomingEvent) (pe : EmailAddressEntry)
    (rest : List EmailAddressEntry) (s : Store)
    (hparse : webhookSafeParse j = some ev)
    (hemails : ev.data.email_addresses = pe :: rest) :
    (POST noFaults (some j) (POST noFaults (some j) s).store).store
        = (POST noFaults (some j) s).store ∧
    (POST noFaults (some j) s).store.users ev.data.id = some (userData ev.data pe) := by
  rw [POST_parse noFaults s hparse, handleEvent_noFaults s hemails]
  constructor
  · rw [POST_parse noFaults _ hparse, handleEvent_noFaults _ hemails]
    simp [applyUser_idem, foldEmails_idem]
  · simp [applyUser, userData]

/-- Witness for C1 at a concrete input: one valid event applied twice to
the empty store. -/
theorem c1_witness :
    (POST noFaults (some sampleJson)
        (POST noFaults (some sampleJson) emptyStore).store).store
        = (POST noFaults (some sampleJson) emptyStore).store ∧
      (POST noFaults (some sampleJson) emptyStore).store.users "user_1"
        = some (userData sampleEvent.data samplePE) :=
  c1_handler_idempotent sampleJson sampleEvent samplePE [] emptyStore rfl rfl

/-- C5 (amended, variant 1): for the hardened handler the user upsert's
update and create branches both write the full normalized record, so the
stored row after any event equals the row a fresh insert of that event
produces, with no merge with prior state. -/
theorem c5_upsert_overwrites (j : Json) (ev : IncomingEvent) (pe : EmailAddressEntry)
    (rest : List EmailAddressEntry) (s : Store)
    (hparse : webhookSafeParse j = some ev)
    (hemails : ev.data.email_addresses = pe :: rest) :
    (POST noFaults (some j) s).store.users ev.data.id = some (userData ev.data pe) ∧
    (POST noFaults (some j) emptyStore).store.users ev.data.id
        = some (userData ev.data pe) := by
  rw [POST_parse noFaults s hparse, handleEvent_noFaults s hemails,
    POST_parse noFaults emptyStore hparse, handleEvent_noFaults emptyStore hemails]
  constructor <;> simp [applyUser, userData]

/-- Counterexample to C5 as stated: variant 2's update branch (lines
216-221, `firstName: firstName ?? undefined`) does not set `firstName`
to null when the new event resolves it to null — the stored row keeps its
old value instead of being overwritten. -/
theorem c5_counterexample :
    (v2UpdateUser c5OldRow "new@example.com" none none none).firstName = some "Old" ∧
      (v2UpdateUser c5OldRow "new@example.com" none none none).firstName ≠ none :=
  ⟨rfl, by decide⟩

/-- Witness for C5 at a concrete input: the event overwrites the
pre-existing row `c5OldRow`, nulling its `lastName`/`imageUrl`. -/
theorem c5_witness :
    (POST noFaults (some sampleJson) c5Store).store.users "user_1"
        = some (userData sampleEvent.data samplePE) ∧
      (POST noFaults (some sampleJson) emptyStore).store.users "user_1"
        = some (userData sampleEvent.data samplePE) :=
  c5_upsert_overwrites sampleJson sampleEvent samplePE [] c5Store rfl rfl

/-- C7: a valid event issues exactly one user upsert followed by one
email upsert per `email_addresses` entry, in sequence order; each email
call carries the entry's id, address, verification status and strategy,
and each create row's `userId` is the event's `data.id`. -/
theorem c7_persistence_trace (j : Json) (ev : IncomingEvent) (pe : EmailAddressEntry)
    (rest : List EmailAddressEntry) (s : Store)
    (hparse : webhookSafeParse j = some ev)
    (hemails : ev.data.email_addresses = pe :: rest) :
    (POST noFaults (some j) s).trace
        = DbOp.userUpsert ev.data.id (userData ev.data pe)
            :: ev.data.email_addresses.map (fun e =>
              DbOp.emailUpsert e.id e.email_address e.verification.status
                e.verification.strategy
                ⟨e.id, ev.data.id, e.email_address, e.verification.status,
                  e.verification.strategy⟩) ∧
    (POST noFaults (some j) s).trace.length = 1 + ev.data.email_addresses.length := by
  rw [POST_parse noFaults s hparse, handleEvent_noFaults s hemails, hemails]
  constructor
  · simp [emailOp, mkEmailRow]
  · simp [Nat.add_comm]

/-- Witness for C7 at a concrete input: one email entry gives one user
upsert followed by one email upsert. -/
theorem c7_witness :
    (POST noFaults (some sampleJson) emptyStore).trace
        = DbOp.userUpsert "user_1" (userData sampleEvent.data samplePE)
            :: [DbOp.emailUpsert "idn_1" "ada@example.com" "verified" "from_oauth_google"
              ⟨"idn_1", "user_1", "ada@example.com", "verified", "from_oauth_google"⟩] ∧
      (POST noFaults (some sampleJson) emptyStore).trace.length = 2 :=
  c7_persistence_trace sampleJson sampleEvent samplePE [] emptyStore rfl rfl

/-- C2: for every validated `RawUser`, `firstName` is the native
`first_name` whenever that field is non-null — including the empty
string — and only on a null/absent native value does it fall back to
`external_accounts[0].given_name` (null when that too is absent); the
same precedence holds for `lastName`/`family_name` and
`imageUrl`/`picture`. -/
theorem c2_name_fallback (d : RawUser) (pe : EmailAddressEntry) :
    (∀ s : String, d.first_name = some s → (userData d pe).firstName = some s) ∧
    (d.first_name = none →
      (userData d pe).firstName = (externalAccount d).bind (fun a => a.given_name)) ∧
    (∀ s : String, d.last_name = some s → (userData d pe).lastName = some s) ∧
    (d.last_name = none →
      (userData d pe).lastName = (externalAccount d).bind (fun a => a.family_name)) ∧
    (∀ s : String, d.image_url = some s → (userData d pe).imageUrl = some s) ∧
    (d.image_url = none →
      (userData d pe).imageUrl = (externalAccount d).bind (fun a => a.picture)) := by
  refine ⟨fun s h => ?_, fun h => ?_, fun s h => ?_, fun h => ?_, fun s h => ?_, fun h => ?_⟩ <;>
    simp [userData, h, Option.orElse]

/-- Witness for C2 at a concrete input: an empty-string `first_name` is
kept even though a linked external account offers the name "Ada". -/
theorem c2_witness : (userData c2User samplePE).firstName = some "" :=
  (c2_name_fallback c2User samplePE).1 "" rfl

/-- C6: with no external-account entry all three OAuth fields are null;
with at least one entry, `oauthProvider` is the hardcoded "google",
`oauthId` is the first account's `google_id` (null when absent) and
`oauthScopes` its `approved_scopes`, regardless of how many accounts are
linked. -/
theorem c6_oauth_linkage (d : RawUser) (pe : EmailAddressEntry) :
    (d.external_accounts = none ∨ d.external_accounts = some [] →
      (userData d pe).oauthProvider = none ∧ (userData d pe).oauthId = none ∧
        (userData d pe).oauthScopes = none) ∧
    (∀ (a : ExternalAccount) (rest : List ExternalAccount),
      d.external_accounts = some (a :: rest) →
      (userData d pe).oauthProvider = some "google" ∧
        (userData d pe).oauthId = a.google_id ∧
        (userData d pe).oauthScopes = some a.approved_scopes) := by
  constructor
  · intro h
    rcases h with h | h <;> simp [userData, externalAccount, h]
  · intro a rest h
    simp [userData, externalAccount, h]

/-- Witness for C6 at a concrete input: one linked account with
`google_id = "g123"`. -/
theorem c6_witness :
    (userData c2User samplePE).oauthProvider = some "google" ∧
      (userData c2User samplePE).oauthId = some "g123" ∧
      (userData c2User samplePE).oauthScopes = some "email profile" :=
  (c6_oauth_linkage c2User samplePE).2
    ⟨"ada@gmail.com", some "Ada", some "Lovelace", none, "email profile", some "g123"⟩ [] rfl

/-- C9: when the email table already holds a row with the event entry's
id, the upsert's update branch rewrites only `emailAddress`,
`verificationStatus` and `verificationStrategy`; the row's `id` and
`userId` are kept — even when the row belongs to a different user — and
rows under other keys are untouched. -/
theorem c9_email_update_frame (m : String → Option CanonicalEmail) (uid : String)
    (e : EmailAddressEntry) (r : CanonicalEmail) (h : m e.id = some r) :
    applyEmail m uid e e.id = some (upd3 e r) ∧
    (upd3 e r).userId = r.userId ∧
    (upd3 e r).id = r.id ∧
    (upd3 e r).emailAddress = e.email_address ∧
    (upd3 e r).verificationStatus = e.verification.status ∧
    (upd3 e r).verificationStrategy = e.verification.strategy ∧
    (∀ x, x ≠ e.id → applyEmail m uid e x = m x) := by
  refine ⟨?_, rfl, rfl, rfl, rfl, rfl, fun x hx => ?_⟩
  · simp [applyEmail, h]
  · simp [applyEmail, hx]

/-- Witness for C9 at a concrete input: the row `idn_1` owned by
`other_user` keeps its owner when `user_1`'s event upserts it. -/
theorem c9_witness :
    applyEmail c9Map "user_1" samplePE samplePE.id = some (upd3 samplePE c9Row) ∧
      (upd3 samplePE c9Row).userId = "other_user" := by
  have h := c9_email_update_frame c9Map "user_1" samplePE c9Row rfl
  exact ⟨h.1, h.2.1⟩

/-- C10: the handler never branches on the event's `type` string — two
valid payloads whose parses agree on `data` produce identical responses,
stores and persistence traces, whatever their `type`. -/
theorem c10_type_independent (faults : Nat → Option DbError) (s : Store)
    (j1 j2 : Json) (ev1 ev2 : IncomingEvent)
    (h1 : webhookSafeParse j1 = some ev1) (h2 : webhookSafeParse j2 = some ev2)
    (hdata : ev1.data = ev2.data) :
    POST faults (some j1) s = POST faults (some j2) s := by
  rw [POST_parse faults s h1, POST_parse faults s h2, hdata]

/-- Witness for C10 at concrete inputs: `user.created` versus
`user.deleted` payloads with the same `data`. -/
theorem c10_witness :
    POST noFaults (some sampleJson) emptyStore
      = POST noFaults (some sampleJsonDeleted) emptyStore :=
  c10_type_independent noFaults emptyStore sampleJson sampleJsonDeleted
    sampleEvent sampleEventDeleted rfl rfl rfl

/-- C3: a payload whose `data` lacks `email_addresses` fails validation,
and a payload validating to an empty `email_addresses` sequence fails the
primary-email check; both answer HTTP 400 and issue no persistence
operation, leaving the store unchanged. -/
theorem c3_no_email_no_persist (faults : Nat → Option DbError) (j : Json) (s : Store) :
    (∀ ev : IncomingEvent, webhookSafeParse j = some ev →
      ev.data.email_addresses = [] →
      POST faults (some j) s = ⟨.noPrimaryEmail, s, []⟩ ∧
        HandlerResponse.status .noPrimaryEmail = 400) ∧
    (dataMissingEmails j = true →
      webhookSafeParse j = none ∧
        POST faults (some j) s = ⟨.invalidPayload, s, []⟩ ∧
        HandlerResponse.status .invalidPayload = 400) := by
  constructor
  · intro ev hp he
    refine ⟨?_, rfl⟩
    rw [POST_parse faults s hp]
    unfold handleEvent
    rw [he]
  · intro h
    have hn := dataMissingEmails_parse h
    exact ⟨hn, by simp [POST, hn], rfl⟩

/-- Witness for C3 at a concrete input: the validated payload with an
empty `email_addresses` array is rejected with 400 and nothing is
persisted. -/
theorem c3_witness :
    POST noFaults (some emptyEmailsJson) emptyStore
        = ⟨.noPrimaryEmail, emptyStore, []⟩ ∧
      HandlerResponse.status .noPrimaryEmail = 400 :=
  (c3_no_email_no_persist noFaults emptyEmailsJson emptyStore).1 emptyEmailsEvent rfl rfl

/-- Counterexample to C4 as stated: the schema uses plain `z.string()`
and `z.array(...)`, so a payload with an empty-string `data.id` and an
empty `email_addresses` array is accepted by the validator. -/
theorem c4_counterexample :
    webhookSafeParse emptyEmailsJson = some emptyEmailsEvent ∧
      emptyEmailsEvent.data.id = "" ∧
      emptyEmailsEvent.data.email_addresses = [] :=
  ⟨rfl, rfl, rfl⟩

/-- C4 (amended): every payload the validator accepts yields a well-typed
`RawUser` whose email addresses all pass the email-format check and whose
`image_url`/`picture` values, when non-null, pass the URL-format check;
`data.id` may be empty and `email_addresses` may be an empty sequence. -/
theorem c4_validator_guarantees (j : Json) (ev : IncomingEvent)
    (h : webhookSafeParse j = some ev) :
    (∀ e ∈ ev.data.email_addresses, isEmail e.email_address = true) ∧
    (∀ u, ev.data.image_url = some u → isUrl u = true) ∧
    (∀ l, ev.data.external_accounts = some l → ∀ a ∈ l,
      isEmail a.email_address = true ∧ ∀ u, a.picture = some u → isUrl u = true) := by
  cases j
  case obj fs =>
    simp only [webhookSafeParse] at h
    split at h
    · rename_i d t heq1 heq2
      injection h with h
      subst h
      obtain ⟨v, hg, hv⟩ := reqF_some heq1
      exact parseRawUser_valid hv
    · simp at h
  all_goals simp [webhookSafeParse] at h

/-- Witness for C4's amended guarantee at a concrete accepted payload. -/
theorem c4_witness : isEmail "ada@example.com" = true :=
  (c4_validator_guarantees sampleJson sampleEvent rfl).1 samplePE (by decide)

theorem errResponse_ne_success (e : DbError) (uid : String) :
    errResponse e ≠ HandlerResponse.success uid := by
  cases e <;> simp [errResponse]

theorem emailLoop_fst_none_iff (faults : Nat → Option DbError) (uid : String) :
    ∀ (es : List EmailAddressEntry) (i : Nat) (m : String → Option CanonicalEmail),
    (emailLoop faults uid es i m).1 = none ↔
      ∀ k, k < es.length → faults (i + k) = none := by
  intro es
  induction es with
  | nil => intro i m; simp [emailLoop]
  | cons e rest ih =>
    intro i m
    unfold emailLoop
    cases hf : faults i with
    | some err =>
      simp only [hf, List.length_cons]
      constructor
      · intro h; simp at h
      · intro h
        have h0 := h 0 (by omega)
        rw [Nat.add_zero] at h0
        rw [h0] at hf
        exact absurd hf (by simp)
    | none =>
      simp only [hf, List.length_cons]
      rw [ih (i + 1) (applyEmail m uid e)]
      constructor
      · intro h k hk
        cases k with
        | zero => rw [Nat.add_zero]; exact hf
        | succ k' =>
          have hh := h k' (by omega)
          rwa [show i + 1 + k' = i + (k' + 1) by omega] at hh
      · intro h k hk
        have hh := h (k + 1) (by omega)
        rwa [show i + (k + 1) = i + 1 + k by omega] at hh

theorem emailLoop_fst_some (faults : Nat → Option DbError) (uid : String) :
    ∀ (es : List EmailAddressEntry) (i : Nat) (m : String → Option CanonicalEmail)
      (err : DbError),
    (emailLoop faults uid es i m).1 = some err →
    ∃ k, k < es.length ∧ faults (i + k) = some err := by
  intro es
  induction es with
  | nil => intro i m err h; simp [emailLoop] at h
  | cons e rest ih =>
    intro i m err h
    unfold emailLoop at h
    cases hf : faults i with
    | some e' =>
      rw [hf] at h
      simp at h
      subst h
      exact ⟨0, by simp, by simpa using hf⟩
    | none =>
      rw [hf] at h
      simp only [] at h
      obtain ⟨k, hk, hfk⟩ := ih (i + 1) (applyEmail m uid e) err h
      refine ⟨k + 1, by simp only [List.length_cons]; omega, ?_⟩
      rwa [show i + (k + 1) = i + 1 + k by omega]

theorem handleEvent_resp {d : RawUser} {pe : EmailAddressEntry}
    {rest : List EmailAddressEntry} (faults : Nat → Option DbError) (s : Store)
    (h : d.email_addresses = pe :: rest) :
    (handleEvent faults d s).resp =
      match faults 0 with
      | some err => errResponse err
      | none =>
        match (emailLoop faults d.id (pe :: rest) 1 s.emails).1 with
        | some err => errResponse err
        | none => .success d.id := by
  unfold handleEvent
  rw [h]
  cases hf : faults 0 with
  | some err => simp [hf]
  | none =>
    simp only [hf]
    cases hr : (emailLoop faults d.id (pe :: rest) 1 s.emails).1 with
    | some err => simp [hr]
    | none => simp [hr]

/-- C8: the catch block maps P2002 to 409, P2014 to 400, P2003 to 400 and
every other persistence error to 500; and a persistence failure is always
surfaced as the mapped HTTP response — the handler answers success
exactly when every issued upsert call succeeded, and otherwise returns
the response derived from a thrown error. -/
theorem c8_error_mapping :
    errorInfo "P2002" = (409, "Resource already exists") ∧
    errorInfo "P2014" = (400, "Invalid ID provided") ∧
    errorInfo "P2003" = (400, "Foreign key constraint failed") ∧
    (∀ code, prismaErrors code = none →
      errorInfo code = (500, "Database error occurred")) ∧
    (HandlerResponse.status (.dbKnownError "P2002") = 409 ∧
      HandlerResponse.status (.dbKnownError "P2014") = 400 ∧
      HandlerResponse.status (.dbKnownError "P2003") = 400 ∧
      HandlerResponse.status .internalError = 500) ∧
    (∀ (faults : Nat → Option DbError) (j : Json) (s : Store) (ev : IncomingEvent)
        (pe : EmailAddressEntry) (rest : List EmailAddressEntry),
      webhookSafeParse j = some ev →
      ev.data.email_addresses = pe :: rest →
      (((POST faults (some j) s).resp = .success ev.data.id) ↔
        ∀ i, i < ev.data.email_addresses.length + 1 → faults i = none) ∧
      ((POST faults (some j) s).resp ≠ .success ev.data.id →
        ∃ k err, k < ev.data.email_addresses.length + 1 ∧ faults k = some err ∧
          (POST faults (some j) s).resp = errResponse err)) := by
  refine ⟨rfl, rfl, rfl, fun code h => by simp [errorInfo, h], ⟨rfl, rfl, rfl, rfl⟩, ?_⟩
  intro faults j s ev pe rest hp he
  rw [POST_parse faults s hp, handleEvent_resp faults s he, he]
  simp only [List.length_cons]
  cases hf : faults 0 with
  | some err =>
    simp only [hf]
    constructor
    · constructor
      · intro hcontra
        exact absurd hcontra (errResponse_ne_success err ev.data.id)
      · intro hall
        have h0 := hall 0 (by omega)
        rw [h0] at hf
        exact absurd hf (by simp)
    · intro hne
      exact ⟨0, err, by omega, hf, rfl⟩
  | none =>
    simp only [hf]
    cases hr : (emailLoop faults ev.data.id (pe :: rest) 1 s.emails).1 with
    | none =>
      simp only [hr]
      constructor
      · constructor
        · intro _ i hi
          cases i with
          | zero => exact hf
          | succ k =>
            have hall := (emailLoop_fst_none_iff faults ev.data.id
              (pe :: rest) 1 s.emails).mp hr
            have hh := hall k (by simp only [List.length_cons]; omega)
            rwa [show 1 + k = k + 1 by omega] at hh
        · intro _
          trivial
      · intro hne
        exact absurd (by trivial) hne
    | some err =>
      simp only [hr]
      constructor
      · constructor
        · intro hcontra
          exact absurd hcontra (errResponse_ne_success err ev.data.id)
        · intro hall
          have hnone : (emailLoop faults ev.data.id (pe :: rest) 1 s.emails).1 = none := by
            rw [emailLoop_fst_none_iff faults ev.data.id (pe :: rest) 1 s.emails]
            intro k hk
            have hh := hall (k + 1) (by simp only [List.length_cons] at hk; omega)
            rwa [show (1 : Nat) + k = k + 1 by omega]
          rw [hnone] at hr
          exact absurd hr (by simp)
      · intro hne
        obtain ⟨k, hk, hfk⟩ :=
          emailLoop_fst_some faults ev.data.id (pe :: rest) 1 s.emails err hr
        refine ⟨k + 1, err, by simp only [List.length_cons] at hk; omega, ?_, rfl⟩
        rwa [show 1 + k = k + 1 by omega] at hfk

/-- Witness for C8's unknown-code fallback at a concrete error code. -/
theorem c8_witness : errorInfo "P2016" = (500, "Database error occurred") :=
  c8_error_mapping.2.2.2.1 "P2016" (by decide)

end Emailux
